import Mathlib

/-!
Shallow embedding of `src/internvl_chat/eval/longvideobench/evaluate_longvideobench.py`
and proofs about its sharding arithmetic, answer matching, retry loop,
evaluation scoring and dataset item construction.
-/

/-- Embeds `InferenceSamplerV2._get_local_indices` (lines 254-262):
`shard_size = total_size // world_size`, `left = total_size % world_size`,
`shard_sizes = [shard_size + int(r < left) for r in range(world_size)]`,
`begin = sum(shard_sizes[:rank])`, `end = min(sum(shard_sizes[:rank+1]), total_size)`,
returning `range(begin, end)`. -/
def get_local_indices (total_size world_size rank : Nat) : List Nat :=
  let shard_size := total_size / world_size
  let left := total_size % world_size
  let shard_sizes := (List.range world_size).map (fun r => shard_size + if r < left then 1 else 0)
  let b := (shard_sizes.take rank).sum
  let e := min ((shard_sizes.take (rank + 1)).sum) total_size
  List.range' b (e - b)

/-- Embeds the modulo shard assignment of `InferenceSamplerV2.__init__` (line 252):
`[i for i in range(size) if i % world_size == rank]`. -/
def modulo_local_indices (size world_size rank : Nat) : List Nat :=
  (List.range size).filter (fun i => i % world_size == rank)

/-- The partial sum of the first `r` shard sizes, in closed form. -/
def shardBegin (total_size world_size r : Nat) : Nat :=
  r * (total_size / world_size) + min r (total_size % world_size)

lemma sum_map_range_shard (q left : Nat) :
    ∀ k, (((List.range k).map fun r => q + if r < left then 1 else 0)).sum
      = k * q + min k left := by
  intro k
  induction k with
  | zero => simp
  | succ n ih =>
    rw [List.range_succ, List.map_append, List.sum_append, ih]
    simp only [List.map_cons, List.map_nil, List.sum_cons, List.sum_nil, Nat.succ_mul]
    split <;> omega

lemma shardBegin_mono (total_size world_size : Nat) {a b : Nat} (h : a ≤ b) :
    shardBegin total_size world_size a ≤ shardBegin total_size world_size b := by
  unfold shardBegin
  have hm := Nat.mul_le_mul_right (total_size / world_size) h
  omega

lemma shardBegin_world (total_size world_size : Nat) (hws : 0 < world_size) :
    shardBegin total_size world_size world_size = total_size := by
  unfold shardBegin
  have h1 := Nat.div_add_mod total_size world_size
  have h2 : total_size % world_size < world_size := Nat.mod_lt _ hws
  omega

lemma get_local_indices_eq (total_size world_size rank : Nat)
    (hws : 0 < world_size) (hr : rank < world_size) :
    get_local_indices total_size world_size rank
      = List.range' (shardBegin total_size world_size rank)
          (shardBegin total_size world_size (rank + 1)
            - shardBegin total_size world_size rank) := by
  unfold get_local_indices
  simp only [← List.map_take, List.take_range, sum_map_range_shard]
  have hmin1 : min rank world_size = rank := by omega
  have hmin2 : min (rank + 1) world_size = rank + 1 := by omega
  rw [hmin1, hmin2]
  have hend : (rank + 1) * (total_size / world_size) + min (rank + 1) (total_size % world_size)
      ≤ total_size := by
    have h1 : shardBegin total_size world_size (rank + 1)
        ≤ shardBegin total_size world_size world_size :=
      shardBegin_mono _ _ (by omega)
    rw [shardBegin_world total_size world_size hws] at h1
    exact h1
  unfold shardBegin
  congr 1
  omega

lemma mem_get_local_indices (total_size world_size rank : Nat)
    (hws : 0 < world_size) (hr : rank < world_size) (i : Nat) :
    i ∈ get_local_indices total_size world_size rank
      ↔ shardBegin total_size world_size rank ≤ i
        ∧ i < shardBegin total_size world_size (rank + 1) := by
  rw [get_local_indices_eq total_size world_size rank hws hr]
  rw [List.mem_range'_1]
  have hmono : shardBegin total_size world_size rank
      ≤ shardBegin total_size world_size (rank + 1) :=
    shardBegin_mono _ _ (by omega)
  omega

lemma shardBegin_exists_rank (total_size world_size : Nat) :
    ∀ n i, i < shardBegin total_size world_size n →
      ∃ r, r < n ∧ shardBegin total_size world_size r ≤ i
        ∧ i < shardBegin total_size world_size (r + 1) := by
  intro n
  induction n with
  | zero =>
    intro i hi
    simp [shardBegin] at hi
  | succ m ih =>
    intro i hi
    by_cases hcase : shardBegin total_size world_size m ≤ i
    · exact ⟨m, by omega, hcase, hi⟩
    · obtain ⟨r, hr, h1, h2⟩ := ih i (by omega)
      exact ⟨r, by omega, h1, h2⟩

lemma shardBegin_succ_sub (total_size world_size rank : Nat) :
    shardBegin total_size world_size (rank + 1) - shardBegin total_size world_size rank
      = if rank < total_size % world_size
          then total_size / world_size + 1 else total_size / world_size := by
  unfold shardBegin
  generalize total_size / world_size = q
  generalize total_size % world_size = l
  have hq : (rank + 1) * q = rank * q + q := Nat.succ_mul _ _
  rw [hq]
  split <;> omega

lemma mem_modulo_local_indices (size world_size rank i : Nat) :
    i ∈ modulo_local_indices size world_size rank ↔ i < size ∧ i % world_size = rank := by
  simp [modulo_local_indices, List.mem_filter, List.mem_range]

/-- C2: for every `total_size ≥ 0`, `world_size > 0` and `rank < world_size`,
`_get_local_indices` returns a contiguous range whose length is
`total_size // world_size + 1` when `rank < total_size % world_size`
and `total_size // world_size` otherwise: shard sizes differ by at most one and
the remainder goes to the lowest-ranked shards first. -/
theorem get_local_indices_shard_length (total_size world_size rank : Nat)
    (hws : 0 < world_size) (hr : rank < world_size) :
    (get_local_indices total_size world_size rank).length
      = (if rank < total_size % world_size
          then total_size / world_size + 1 else total_size / world_size) ∧
    ∃ b, get_local_indices total_size world_size rank
      = List.range' b (if rank < total_size % world_size
          then total_size / world_size + 1 else total_size / world_size) := by
  constructor
  · rw [get_local_indices_eq total_size world_size rank hws hr, List.length_range',
      shardBegin_succ_sub]
  · refine ⟨shardBegin total_size world_size rank, ?_⟩
    rw [get_local_indices_eq total_size world_size rank hws hr, shardBegin_succ_sub]

/-- Witness for C2 at `total_size = 5`, `world_size = 2`, `rank = 0`. -/
theorem get_local_indices_shard_length_witness :
    0 < 2 ∧ 0 < 2 ∧
    ((get_local_indices 5 2 0).length = (if 0 < 5 % 2 then 5 / 2 + 1 else 5 / 2) ∧
     ∃ b, get_local_indices 5 2 0 = List.range' b (if 0 < 5 % 2 then 5 / 2 + 1 else 5 / 2)) :=
  ⟨by decide, by decide, get_local_indices_shard_length 5 2 0 (by decide) (by decide)⟩

/-- C1: for `total_size > 0` and `world_size > 0`, the contiguous ranges returned by
`_get_local_indices` for ranks `0 .. world_size-1` partition `[0, total_size)`:
every member of a shard is a valid index, every index belongs to some rank's shard,
and distinct ranks' shards are disjoint. -/
theorem get_local_indices_partition (total_size world_size : Nat)
    (ht : 0 < total_size) (hws : 0 < world_size) :
    (∀ r, r < world_size → ∀ i, i ∈ get_local_indices total_size world_size r →
      i < total_size) ∧
    (∀ i, i < total_size → ∃ r, r < world_size ∧
      i ∈ get_local_indices total_size world_size r) ∧
    (∀ r1 r2, r1 < world_size → r2 < world_size → r1 ≠ r2 →
      ∀ i, i ∈ get_local_indices total_size world_size r1 →
        i ∉ get_local_indices total_size world_size r2) := by
  refine ⟨?_, ?_, ?_⟩
  · intro r hr i hi
    rw [mem_get_local_indices total_size world_size r hws hr] at hi
    have h1 : shardBegin total_size world_size (r + 1)
        ≤ shardBegin total_size world_size world_size :=
      shardBegin_mono _ _ (by omega)
    rw [shardBegin_world total_size world_size hws] at h1
    omega
  · intro i hi
    have hi' : i < shardBegin total_size world_size world_size := by
      rw [shardBegin_world total_size world_size hws]; exact hi
    obtain ⟨r, hr, h1, h2⟩ := shardBegin_exists_rank total_size world_size world_size i hi'
    refine ⟨r, hr, ?_⟩
    rw [mem_get_local_indices total_size world_size r hws hr]
    exact ⟨h1, h2⟩
  · intro r1 r2 hr1 hr2 hne i hi1 hi2
    rw [mem_get_local_indices total_size world_size r1 hws hr1] at hi1
    rw [mem_get_local_indices total_size world_size r2 hws hr2] at hi2
    rcases Nat.lt_or_gt_of_ne hne with hlt | hgt
    · have := shardBegin_mono total_size world_size (show r1 + 1 ≤ r2 by omega)
      omega
    · have := shardBegin_mono total_size world_size (show r2 + 1 ≤ r1 by omega)
      omega

/-- Witness for C1 at `total_size = 5`, `world_size = 2`. -/
theorem get_local_indices_partition_witness :
    0 < 5 ∧ 0 < 2 ∧
    ((∀ r, r < 2 → ∀ i, i ∈ get_local_indices 5 2 r → i < 5) ∧
     (∀ i, i < 5 → ∃ r, r < 2 ∧ i ∈ get_local_indices 5 2 r) ∧
     (∀ r1 r2, r1 < 2 → r2 < 2 → r1 ≠ r2 →
       ∀ i, i ∈ get_local_indices 5 2 r1 → i ∉ get_local_indices 5 2 r2)) :=
  ⟨by decide, by decide, get_local_indices_partition 5 2 (by decide) (by decide)⟩

/-- C3: for `size > 0` and `world_size > 0`, the modulo assignment of
`InferenceSamplerV2.__init__` covers every index in `[0, size)` exactly once:
shard members are valid indices, every index belongs to some rank's list,
and distinct ranks' lists are disjoint. -/
theorem modulo_local_indices_partition (size world_size : Nat)
    (hs : 0 < size) (hws : 0 < world_size) :
    (∀ r, r < world_size → ∀ i, i ∈ modulo_local_indices size world_size r → i < size) ∧
    (∀ i, i < size → ∃ r, r < world_size ∧ i ∈ modulo_local_indices size world_size r) ∧
    (∀ r1 r2, r1 < world_size → r2 < world_size → r1 ≠ r2 →
      ∀ i, i ∈ modulo_local_indices size world_size r1 →
        i ∉ modulo_local_indices size world_size r2) := by
  refine ⟨?_, ?_, ?_⟩
  · intro r hr i hi
    exact ((mem_modulo_local_indices size world_size r i).mp hi).1
  · intro i hi
    refine ⟨i % world_size, Nat.mod_lt _ hws, ?_⟩
    rw [mem_modulo_local_indices]
    exact ⟨hi, rfl⟩
  · intro r1 r2 hr1 hr2 hne i hi1 hi2
    rw [mem_modulo_local_indices] at hi1 hi2
    exact hne (hi1.2 ▸ hi2.2 ▸ rfl)

/-- Witness for C3 at `size = 5`, `world_size = 2`. -/
theorem modulo_local_indices_partition_witness :
    0 < 5 ∧ 0 < 2 ∧
    ((∀ r, r < 2 → ∀ i, i ∈ modulo_local_indices 5 2 r → i < 5) ∧
     (∀ i, i < 5 → ∃ r, r < 2 ∧ i ∈ modulo_local_indices 5 2 r) ∧
     (∀ r1 r2, r1 < 2 → r2 < 2 → r1 ≠ r2 →
       ∀ i, i ∈ modulo_local_indices 5 2 r1 → i ∉ modulo_local_indices 5 2 r2)) :=
  ⟨by decide, by decide, modulo_local_indices_partition 5 2 (by decide) (by decide)⟩

/-- C4: the modulo and contiguous shard assignments are functionally different:
at `total_size = 4`, `world_size = 2`, `rank = 0` the index sets disagree
(index 1 is in the contiguous shard but not in the modulo shard). -/
theorem shard_variants_differ :
    ∃ total_size world_size rank, rank < world_size ∧
      ∃ i, ¬ (i ∈ modulo_local_indices total_size world_size rank
          ↔ i ∈ get_local_indices total_size world_size rank) := by
  refine ⟨4, 2, 0, by decide, 1, ?_⟩
  decide

/-- A PIL image, modelled by its mode, its size and a constant fill colour
(sufficient for the images this script constructs). -/
structure PILImage where
  mode : String
  width : Nat
  height : Nat
  fill : Nat × Nat × Nat
deriving DecidableEq

/-- Embeds `empty_image` (lines 107-108): `Image.new('RGB', (800, 600), (255, 255, 255))`. -/
def empty_image : PILImage :=
  { mode := "RGB", width := 800, height := 600, fill := (255, 255, 255) }

/-- The observable outcome of a call to `ImageIO.__call__`: a returned image,
a raised `RuntimeError(image_url)`, or Python's implicit `None` when control
falls off the end of the retry loop. -/
inductive CallResult where
  | returned (img : PILImage)
  | raised (msg : String)
  | pyNone
deriving DecidableEq

/-- Embeds `self.retry_num = 10` (line 112). -/
def retry_num : Nat := 10

/-- One iteration body plus the remaining loop of `ImageIO.__call__` (lines 114-128).
`attempt i` models iteration `i` of the try block (`os.path.isfile` check plus
`Image.open(image_url).convert('RGB')`): `ok img` when the image loads and is
returned, `error e` when an exception is raised (including the `NameError` on a
missing file, since `image` is then unbound at `return image`). -/
def imageIO_call_go (attempt : Nat → Except String PILImage) (image_url : String)
    (auto_retry raise_error : Bool) : Nat → Nat → CallResult
  | 0, _ => CallResult.pyNone
  | fuel + 1, i =>
    match attempt i with
    | Except.ok img => CallResult.returned img
    | Except.error _ =>
      if auto_retry then
        imageIO_call_go attempt image_url auto_retry raise_error fuel (i + 1)
      else if raise_error then
        CallResult.raised image_url
      else
        CallResult.returned empty_image

/-- Embeds `ImageIO.__call__` (lines 114-128): `for i in range(self.retry_num)`
around `attempt`, with the except-branch control flow on `auto_retry` and
`raise_error`; falling off the loop yields Python's `None`. -/
def imageIO_call (attempt : Nat → Except String PILImage) (image_url : String)
    (auto_retry raise_error : Bool) : CallResult :=
  imageIO_call_go attempt image_url auto_retry raise_error retry_num 0

lemma imageIO_call_go_all_fail (attempt : Nat → Except String PILImage)
    (image_url : String) (raise_error : Bool) :
    ∀ fuel i, (∀ j, j < fuel → ∃ e, attempt (i + j) = Except.error e) →
      imageIO_call_go attempt image_url true raise_error fuel i = CallResult.pyNone := by
  intro fuel
  induction fuel with
  | zero => intro i _; rfl
  | succ n ih =>
    intro i h
    obtain ⟨e, he⟩ := h 0 (Nat.succ_pos n)
    rw [Nat.add_zero] at he
    have h' : ∀ j, j < n → ∃ e, attempt (i + 1 + j) = Except.error e := by
      intro j hj
      have hh := h (j + 1) (by omega)
      rwa [show i + (j + 1) = i + 1 + j by omega] at hh
    have hstep : imageIO_call_go attempt image_url true raise_error (n + 1) i
        = imageIO_call_go attempt image_url true raise_error n (i + 1) := by
      simp [imageIO_call_go, he]
    rw [hstep]
    exact ih (i + 1) h'

/-- A concrete load attempt that always raises, used to instantiate the
retry-exhaustion theorems. -/
def failing_attempt : Nat → Except String PILImage := fun _ => Except.error "load failed"

/-- Counterexample to C5: with `auto_retry=True` every attempt fails, the
retry bound is reached, and the call returns `None` — neither a raised
`RuntimeError` nor the blank placeholder image. -/
theorem imageIO_call_exhaustion_counterexample :
    imageIO_call failing_attempt "img.jpg" true true = CallResult.pyNone ∧
    imageIO_call failing_attempt "img.jpg" true false = CallResult.pyNone ∧
    CallResult.pyNone ≠ CallResult.raised "img.jpg" ∧
    CallResult.pyNone ≠ CallResult.returned empty_image := by
  refine ⟨rfl, rfl, by decide, by decide⟩

/-- C5 (amended): `ImageIO.__call__` bounds its loop by `self.retry_num = 10`;
when every attempt fails, the outcome is controlled by the caller flags as
follows: with `auto_retry=False` the first failure either raises
`RuntimeError(image_url)` (when `raise_error=True`) or returns the 800x600
white RGB placeholder (when `raise_error=False`); with `auto_retry=True` all
10 attempts are consumed and the call then returns `None`. -/
theorem imageIO_call_failure_modes (attempt : Nat → Except String PILImage)
    (image_url : String)
    (h : ∀ i, i < retry_num → ∃ e, attempt i = Except.error e) :
    retry_num = 10 ∧
    imageIO_call attempt image_url false true = CallResult.raised image_url ∧
    imageIO_call attempt image_url false false = CallResult.returned empty_image ∧
    (∀ raise_error, imageIO_call attempt image_url true raise_error = CallResult.pyNone) := by
  obtain ⟨e, he⟩ := h 0 (by decide)
  refine ⟨rfl, ?_, ?_, ?_⟩
  · simp [imageIO_call, retry_num, imageIO_call_go, he]
  · simp [imageIO_call, retry_num, imageIO_call_go, he]
  · intro raise_error
    refine imageIO_call_go_all_fail attempt image_url raise_error retry_num 0 ?_
    intro j hj
    have hh := h j hj
    rwa [Nat.zero_add]

/-- Witness for C5 (amended) at the always-failing attempt and url `"img.jpg"`. -/
theorem imageIO_call_failure_modes_witness :
    (∀ i, i < retry_num → ∃ e, failing_attempt i = Except.error e) ∧
    (retry_num = 10 ∧
     imageIO_call failing_attempt "img.jpg" false true = CallResult.raised "img.jpg" ∧
     imageIO_call failing_attempt "img.jpg" false false = CallResult.returned empty_image ∧
     (∀ raise_error, imageIO_call failing_attempt "img.jpg" true raise_error
        = CallResult.pyNone)) :=
  ⟨fun _ _ => ⟨"load failed", rfl⟩,
   imageIO_call_failure_modes failing_attempt "img.jpg" (fun _ _ => ⟨"load failed", rfl⟩)⟩

/-- C9: when every one of the 10 attempts fails and `auto_retry=True`,
`ImageIO.__call__` falls off the end of the loop and returns `None`,
regardless of `raise_error`. -/
theorem imageIO_call_auto_retry_exhaustion_none (attempt : Nat → Except String PILImage)
    (image_url : String) (raise_error : Bool)
    (h : ∀ i, i < retry_num → ∃ e, attempt i = Except.error e) :
    imageIO_call attempt image_url true raise_error = CallResult.pyNone := by
  refine imageIO_call_go_all_fail attempt image_url raise_error retry_num 0 ?_
  intro j hj
  have hh := h j hj
  rwa [Nat.zero_add]

/-- Witness for C9 at the always-failing attempt, url `"img.jpg"`, `raise_error=True`. -/
theorem imageIO_call_auto_retry_exhaustion_none_witness :
    (∀ i, i < retry_num → ∃ e, failing_attempt i = Except.error e) ∧
    imageIO_call failing_attempt "img.jpg" true true = CallResult.pyNone :=
  ⟨fun _ _ => ⟨"load failed", rfl⟩,
   imageIO_call_auto_retry_exhaustion_none failing_attempt "img.jpg" true
     (fun _ _ => ⟨"load failed", rfl⟩)⟩

/-- Python `str.lower()`, character by character. -/
def pyLower (s : String) : String := String.mk (s.data.map Char.toLower)

/-- Python `str.split(' ')` on a character list: cut at every single space,
keeping empty pieces (so consecutive spaces yield empty strings and the
empty string splits to `[""]`). -/
def pySplitCh : List Char → List (List Char)
  | [] => [[]]
  | c :: t =>
    if c = ' ' then [] :: pySplitCh t
    else
      match pySplitCh t with
      | [] => [[c]]
      | w :: ws => (c :: w) :: ws

/-- Python `str.split(' ')`. -/
def pySplit (s : String) : List String := (pySplitCh s.data).map String.mk

/-- Python `' '.join(l)` on character lists. -/
def pyJoinCh : List (List Char) → List Char
  | [] => []
  | [w] => w
  | w :: ws => w ++ ' ' :: pyJoinCh ws

/-- Python `' '.join(l)`. -/
def pyJoin (l : List String) : String := String.mk (pyJoinCh (l.map String.data))

/-- Python `str.strip()`: drop leading and trailing whitespace. -/
def pyStrip (s : String) : String :=
  String.mk (((s.data.dropWhile Char.isWhitespace).reverse.dropWhile
    Char.isWhitespace).reverse)

/-- Python `str.replace('.', '')`: remove every period. -/
def pyRemoveDots (s : String) : String :=
  String.mk (s.data.filter (fun c => c ≠ '.'))

/-- Python substring containment for character lists (`needle in hay`). -/
def isSubCh (needle : List Char) : List Char → Bool
  | [] => needle.isEmpty
  | c :: t => needle.isPrefixOf (c :: t) || isSubCh needle t

/-- Python substring containment `needle in hay` for strings. -/
def pyIn (needle hay : String) : Bool := isSubCh needle.data hay.data

lemma pySplitCh_ne_nil : ∀ l : List Char, pySplitCh l ≠ [] := by
  intro l
  induction l with
  | nil => simp [pySplitCh]
  | cons c t ih =>
    rw [pySplitCh]
    split
    · simp
    · cases hpt : pySplitCh t with
      | nil => simp
      | cons w ws => simp

lemma pySplit_ne_nil (s : String) : pySplit s ≠ [] := by
  unfold pySplit
  intro hmap
  exact pySplitCh_ne_nil s.data (List.map_eq_nil_iff.mp hmap)

lemma char_toNat_ofNat (n : Nat) (h : n.isValidChar) : (Char.ofNat n).toNat = n := by
  simp [Char.ofNat, h, Char.ofNatAux, Char.toNat, UInt32.ofNat', UInt32.toNat,
    BitVec.ofNatLt]

lemma char_toLower_idem (c : Char) : c.toLower.toLower = c.toLower := by
  unfold Char.toLower
  by_cases h : c.toNat ≥ 65 ∧ c.toNat ≤ 90
  · rw [if_pos h]
    have hv : (c.toNat + 32).isValidChar := by
      left
      omega
    rw [char_toNat_ofNat _ hv]
    rw [if_neg (by omega)]
  · rw [if_neg h, if_neg h]

lemma pyLower_idem (s : String) : pyLower (pyLower s) = pyLower s := by
  unfold pyLower
  simp [List.map_map, Function.comp_def, char_toLower_idem]

/-- Embeds `check_answer` (lines 86-105): lower both strings, split each on
spaces into option token and remainder, strip a trailing period from the
ground-truth remainder (line 97 indexes `gt_content[-1]`, an `IndexError` when
that remainder is empty, modelled as `Except.error "IndexError"`), and match if
the normalized predicted option token occurs in the ground-truth option token
or the stripped ground-truth remainder occurs in the predicted remainder. -/
def check_answer (predict gt_answer : String) : Except String Bool :=
  let predict1 := pyLower predict
  let gt_answer1 := pyLower gt_answer
  match pySplit (pyLower predict1), pySplit (pyLower gt_answer1) with
  | pred_option :: pred_rest, gt_option :: gt_rest =>
    let pred_content := pyJoin pred_rest
    let gt_content := pyJoin gt_rest
    match gt_content.data.getLast? with
    | none => Except.error "IndexError"
    | some last =>
      let gt_content2 :=
        if last = '.' then String.mk gt_content.data.dropLast else gt_content
      Except.ok (pyIn (pyStrip (pyRemoveDots pred_option)) gt_option
        || pyIn (pyStrip gt_content2) pred_content)
  | _, _ => Except.error "IndexError"

/-- Modelled from the claim's wording, for comparison with `check_answer`:
lower-case each string, split on spaces into a leading option token and the
remainder; declare a match iff the predicted option token (periods removed,
whitespace stripped) is a substring of the ground-truth option token, or the
ground-truth remainder (trailing period stripped, then whitespace stripped)
is a substring of the predicted remainder. -/
def check_answer_spec (predict gt_answer : String) : Bool :=
  let pred_list := pySplit (pyLower predict)
  let gt_list := pySplit (pyLower gt_answer)
  let pred_option := pred_list.headD ""
  let pred_content := pyJoin pred_list.tail
  let gt_option := gt_list.headD ""
  let gt_content := pyJoin gt_list.tail
  let gt_content2 :=
    if gt_content.data.getLast? = some '.' then String.mk gt_content.data.dropLast
    else gt_content
  pyIn (pyStrip (pyRemoveDots pred_option)) gt_option
    || pyIn (pyStrip gt_content2) pred_content

lemma check_answer_ok_of_remainder_ne (predict gt_answer : String)
    (h : pyJoin ((pySplit (pyLower gt_answer)).tail) ≠ "") :
    check_answer predict gt_answer = Except.ok (check_answer_spec predict gt_answer) := by
  unfold check_answer check_answer_spec
  simp only [pyLower_idem]
  cases hp : pySplit (pyLower predict) with
  | nil => exact absurd hp (pySplit_ne_nil _)
  | cons p ps =>
    cases hg : pySplit (pyLower gt_answer) with
    | nil => exact absurd hg (pySplit_ne_nil _)
    | cons g gs =>
      rw [hg] at h
      simp only [List.tail_cons] at h
      have hdata : (pyJoin gs).data ≠ [] := by
        intro hd
        exact h (show pyJoin gs = "" from String.ext hd)
      cases hlast : (pyJoin gs).data.getLast? with
      | none => exact absurd (List.getLast?_eq_none_iff.mp hlast) hdata
      | some last =>
        simp [hlast]

/-- C6 (amended): whenever the ground-truth remainder (after the leading
option token) is nonempty, `check_answer` returns a boolean, and it returns
`True` exactly under the condition described by the claim: the normalized
predicted option token is a substring of the ground-truth option token, or
the stripped ground-truth remainder is a substring of the predicted
remainder. -/
theorem check_answer_iff_spec (predict gt_answer : String)
    (h : pyJoin ((pySplit (pyLower gt_answer)).tail) ≠ "") :
    check_answer predict gt_answer = Except.ok (check_answer_spec predict gt_answer) :=
  check_answer_ok_of_remainder_ne predict gt_answer h

/-- Witness for C6 (amended) at `predict = "a."`, `gt_answer = "A. apple"`. -/
theorem check_answer_iff_spec_witness :
    pyJoin ((pySplit (pyLower "A. apple")).tail) ≠ "" ∧
    check_answer "a." "A. apple" = Except.ok (check_answer_spec "a." "A. apple") :=
  ⟨by decide, check_answer_iff_spec "a." "A. apple" (by decide)⟩

/-- Counterexample to C6 as stated: on `predict = "b"`, `gt_answer = "a."`
(whose remainder after the option token is empty) `check_answer` raises an
`IndexError` instead of returning the boolean the claim describes (the
claim's own condition would yield `True` there, the empty string being a
substring of everything). -/
theorem check_answer_counterexample :
    check_answer "b" "a." = Except.error "IndexError" ∧
    check_answer_spec "b" "a." = true := by
  refine ⟨rfl, rfl⟩

/-- C8: `check_answer` is partial: for every ground-truth string whose
remainder after the leading option token is empty, and every predicted
string, it raises `IndexError` at `gt_content[-1]` instead of returning a
boolean. -/
theorem check_answer_empty_remainder_raises (predict gt_answer : String)
    (h : pyJoin ((pySplit (pyLower gt_answer)).tail) = "") :
    check_answer predict gt_answer = Except.error "IndexError" := by
  unfold check_answer
  simp only [pyLower_idem]
  cases hp : pySplit (pyLower predict) with
  | nil => rfl
  | cons p ps =>
    cases hg : pySplit (pyLower gt_answer) with
    | nil => rfl
    | cons g gs =>
      rw [hg] at h
      simp only [List.tail_cons] at h
      have hdata : (pyJoin gs).data = [] := by
        rw [h]
      simp [hdata]

/-- Witness for C8 at `predict = "b"`, `gt_answer = "A."`. -/
theorem check_answer_empty_remainder_raises_witness :
    pyJoin ((pySplit (pyLower "A.")).tail) = "" ∧
    check_answer "b" "A." = Except.error "IndexError" :=
  ⟨by decide, check_answer_empty_remainder_raises "b" "A." (by decide)⟩

/-- One gathered inference output, as assembled in `evaluate_chat_model`
(lines 312-317): the fields consumed by `evaluate` are `pred` and `gt`. -/
structure EvalOutput where
  question : String
  pred : String
  gt : String
  task_type : String
deriving DecidableEq

/-- Models `np.mean` applied to a list of booleans (`True` contributing 1.0,
`False` 0.0): the exact real-valued mean, represented in `ℚ`; `np.mean` of
the empty array is `NaN`, modelled as `none`. -/
def np_mean (l : List Bool) : Option ℚ :=
  if l.isEmpty then none
  else some ((l.countP id : ℚ) / (l.length : ℚ))

/-- Embeds `LongVideoBenchTask.evaluate` (lines 191-199): run `check_answer`
on each output's `pred` and `gt`, propagate any exception it raises, set
`Accuracy_overall` to the `np.mean` of the results, and return the metrics
together with `merged_outputs` unchanged. -/
def task_evaluate (merged_outputs : List EvalOutput) :
    Except String (Option ℚ × List EvalOutput) := do
  let all_acc ← merged_outputs.mapM (fun line => check_answer line.pred line.gt)
  pure (np_mean all_acc, merged_outputs)

lemma mapM_check_answer_ok (l : List EvalOutput)
    (h : ∀ o ∈ l, ∃ b, check_answer o.pred o.gt = Except.ok b) :
    l.mapM (fun line => check_answer line.pred line.gt)
      = Except.ok (l.map (fun o => (check_answer o.pred o.gt).toOption.getD false)) := by
  induction l with
  | nil => rfl
  | cons a t ih =>
    obtain ⟨b, hb⟩ := h a (List.mem_cons_self a t)
    have ht := ih (fun o ho => h o (List.mem_cons_of_mem a ho))
    rw [List.mapM_cons, List.map_cons, hb, ht]
    cases b <;> rfl

/-- Counterexample to C7 as stated: on a single gathered output whose `gt`
has an empty remainder, `evaluate` propagates `check_answer`'s `IndexError`
and returns no metrics at all. -/
theorem task_evaluate_counterexample :
    task_evaluate [{ question := "q", pred := "b", gt := "a.", task_type := "t" }]
      = Except.error "IndexError" := rfl

/-- C7 (amended): for every nonempty list of gathered outputs on which
`check_answer` raises no exception (each ground-truth remainder nonempty),
`evaluate` maps `Accuracy_overall` to the fraction of outputs whose
prediction matches, and returns the outputs list unchanged. -/
theorem task_evaluate_accuracy (merged_outputs : List EvalOutput)
    (hne : merged_outputs ≠ [])
    (h : ∀ o ∈ merged_outputs, pyJoin ((pySplit (pyLower o.gt)).tail) ≠ "") :
    task_evaluate merged_outputs
      = Except.ok (some
          ((merged_outputs.countP
              (fun o => (check_answer o.pred o.gt).toOption.getD false) : ℚ)
            / (merged_outputs.length : ℚ)),
          merged_outputs) := by
  have hok : ∀ o ∈ merged_outputs, ∃ b, check_answer o.pred o.gt = Except.ok b :=
    fun o ho => ⟨check_answer_spec o.pred o.gt,
      check_answer_ok_of_remainder_ne o.pred o.gt (h o ho)⟩
  unfold task_evaluate
  rw [mapM_check_answer_ok merged_outputs hok]
  have hlen : merged_outputs.length ≠ 0 := fun hz => hne (List.length_eq_zero.mp hz)
  simp [np_mean, List.isEmpty_iff, hne, List.countP_map, Function.comp_def]

/-- Witness for C7 (amended) at a single correctly-answered output. -/
theorem task_evaluate_accuracy_witness :
    ([{ question := "q", pred := "a", gt := "A. apple", task_type := "t" }]
        : List EvalOutput) ≠ [] ∧
    (∀ o ∈ ([{ question := "q", pred := "a", gt := "A. apple", task_type := "t" }]
        : List EvalOutput), pyJoin ((pySplit (pyLower o.gt)).tail) ≠ "") ∧
    task_evaluate [{ question := "q", pred := "a", gt := "A. apple", task_type := "t" }]
      = Except.ok (some
          ((([{ question := "q", pred := "a", gt := "A. apple", task_type := "t" }]
              : List EvalOutput).countP
              (fun o => (check_answer o.pred o.gt).toOption.getD false) : ℚ)
            / (([{ question := "q", pred := "a", gt := "A. apple", task_type := "t" }]
              : List EvalOutput).length : ℚ)),
          [{ question := "q", pred := "a", gt := "A. apple", task_type := "t" }]) :=
  ⟨by decide, by decide,
   task_evaluate_accuracy
     [{ question := "q", pred := "a", gt := "A. apple", task_type := "t" }]
     (by decide) (by decide)⟩

/-- Embeds the `'answer'` field of `LongVideoBenchDataset.__getitem__` (line 52):
`chr(ord('A') + di.get('correct_choice', -1)) + '. ' + di['candidates'][di.get('correct_choice', 0)]`.
The two `di.get` calls use different defaults (`-1` for the letter, `0` for the
text); an out-of-range candidate index is Python's `IndexError`. -/
def getitem_answer (correct_choice : Option Nat) (candidates : List String) :
    Except String String :=
  let letter := Char.ofNat (65 + (match correct_choice with
    | some c => (c : Int)
    | none => -1)).toNat
  let idx := match correct_choice with
    | some c => c
    | none => 0
  match candidates.get? idx with
  | some cand => Except.ok (String.mk [letter] ++ ". " ++ cand)
  | none => Except.error "IndexError"

/-- C10: for a record lacking `'correct_choice'` (here `none`) with a nonempty
candidate list, the answer letter comes from the default `-1` (`chr(64) = '@'`)
while the answer text comes from the default index `0`, so the answer is
`"@. "` followed by the first candidate. -/
theorem getitem_answer_missing_key (c : String) (cs : List String) :
    getitem_answer none (c :: cs) = Except.ok ("@. " ++ c) ∧ Char.ofNat 64 = '@' :=
  ⟨rfl, rfl⟩
